import Mathlib

/-!
Verification of `mlrose_ky/runners/rhc_runner.py` (the `RHCRunner` class).

The fragment under verification is a thin experiment-runner class: its
constructor forwards configuration to the external base class `_RunnerBase`
and stores `restart_list`, and its `run()` method delegates to the inherited
`run_experiment_` sweep, passing the external algorithm function
`mlrose_ky.random_hill_climb` and the single named hyperparameter binding
`restarts=("Restarts", self.restart_list)`.

Modelling choices:
* Python `list` objects are heap references: `Addr` is an address and a
  `Heap` maps addresses to their current `List Int` contents.  The source
  line `self.restart_list: list[int] = restart_list` binds the reference,
  so the embedded constructor stores the `Addr` unchanged.
* The base class `_RunnerBase` is not part of the given source; its
  initializer and `run_experiment_` are modelled from the spec and marked so.
* The external algorithm layer (one algorithm execution, and the result
  aggregation into the two tables) is kept abstract: theorems quantify over
  a function `runAlg` executing one invocation (possibly failing, hence
  `Except`) and a function `aggregate` building the pair of result tables
  (each possibly `None`, hence `Option`).
* `run()` is stateful Python code, so it is embedded in explicit state
  passing style: it returns the post-state of the runner together with the
  value it returns.  The method body is a single `return` with no field
  assignment, which the embedding reflects.
-/

/-- Heap address of a Python `list[int]` object. -/
abbrev Addr := Nat

/-- The heap of Python `list[int]` objects: current contents at each address. -/
abbrev Heap := Addr → List Int

/-- References to algorithm functions of the external `mlrose_ky` library.
`random_hill_climb` is the one `RHCRunner.run` passes; the other
constructors stand for the library's other algorithm functions, so that
"the algorithm passed is `random_hill_climb`" is a non-trivial statement. -/
inductive AlgorithmRef where
  | random_hill_climb : AlgorithmRef
  | simulated_annealing : AlgorithmRef
  | genetic_alg : AlgorithmRef
  | mimic : AlgorithmRef
deriving DecidableEq, Repr

/-- One named hyperparameter binding as passed to `run_experiment_`:
the Python keyword name, and the value, which in the source is the tuple
`(display name, reference to the list of values to sweep)`. -/
structure NamedParam where
  kwarg : String
  value : String × Addr
deriving DecidableEq, Repr

/-- One invocation of an algorithm performed by the sweep: which algorithm
runs and the hyperparameter assignment (display name, value) it receives. -/
structure Invocation where
  algorithm : AlgorithmRef
  params : List (String × Int)
deriving DecidableEq, Repr

/-- State of the external base runner `_RunnerBase`: the configuration
fields the `RHCRunner` constructor forwards to it. -/
structure BaseState (P V : Type) where
  problem : P
  experiment_name : String
  seed : Int
  iteration_list : List Int
  max_attempts : Int
  generate_curves : Bool
  kwargs : List (String × V)

/-- Modelled from the spec: the external `_RunnerBase.__init__` (the base
class is not part of the given source).  Per the spec the configuration is
"all owned by the runner instance for its lifetime", so the initializer
stores the forwarded fields. -/
def _RunnerBase.init {P V : Type} (problem : P) (experiment_name : String) (seed : Int)
    (iteration_list : List Int) (max_attempts : Int) (generate_curves : Bool)
    (kwargs : List (String × V)) : BaseState P V :=
  ⟨problem, experiment_name, seed, iteration_list, max_attempts, generate_curves, kwargs⟩

/-- Modelled from the spec: the value combinations of the grid search of
`run_experiment_` (the base class is not part of the given source).  Per the
spec the sweep runs "once per distinct restart value", so each supplied
value list is deduplicated and the grid is the product of the lists. -/
def _RunnerBase.gridCombos (h : Heap) : List NamedParam → List (List (String × Int))
  | [] => [[]]
  | p :: ps =>
    (((h p.value.2).dedup).map
      (fun v => (_RunnerBase.gridCombos h ps).map (fun rest => (p.value.1, v) :: rest))).flatten

/-- Modelled from the spec: the invocations the sweep of `run_experiment_`
performs, one per grid combination, all running the supplied algorithm. -/
def _RunnerBase.gridInvocations (h : Heap) (algorithm : AlgorithmRef)
    (params : List NamedParam) : List Invocation :=
  (_RunnerBase.gridCombos h params).map (fun ps => ⟨algorithm, ps⟩)

/-- Sequential execution of a list of invocations by the external algorithm
layer: the first failure aborts the sweep and is propagated unchanged. -/
def runAll {E R : Type} (f : Invocation → Except E R) : List Invocation → Except E (List R)
  | [] => Except.ok []
  | inv :: rest =>
    match f inv with
    | Except.error e => Except.error e
    | Except.ok r =>
      match runAll f rest with
      | Except.error e => Except.error e
      | Except.ok rs => Except.ok (r :: rs)

/-- Modelled from the spec: the external `_RunnerBase.run_experiment_`
(the base class is not part of the given source).  It receives the algorithm
function reference and the named hyperparameter bindings, performs the grid
search (one algorithm invocation per distinct value combination, executed by
the external layer `runAlg`), and aggregates the collected rows into the
pair of result tables (each possibly `None`, the "no data" condition being
determined externally by `aggregate`).  A failure of any invocation is
propagated unchanged. -/
def _RunnerBase.run_experiment_ {P V E R D : Type}
    (runAlg : BaseState P V → Invocation → Except E R)
    (aggregate : List R → Option D × Option D)
    (h : Heap) (self : BaseState P V) (algorithm : AlgorithmRef)
    (params : List NamedParam) : Except E (Option D × Option D) :=
  Except.map aggregate (runAll (runAlg self) (_RunnerBase.gridInvocations h algorithm params))

/-- The `RHCRunner` instance: the inherited `_RunnerBase` state plus the one
field this fragment sets, `self.restart_list`, a reference to the caller's
list of restart values. -/
structure RHCRunner (P V : Type) where
  base : BaseState P V
  restart_list : Addr

/-- Embedding of `RHCRunner.__init__`: it forwards `problem`,
`experiment_name`, `seed`, `iteration_list`, `max_attempts`,
`generate_curves` and the extra keyword arguments to `super().__init__` and
then binds `self.restart_list` to the given reference.  The body performs no
validation and no operation that can raise, so the embedded constructor is a
total function. -/
def RHCRunner.init {P V : Type} (problem : P) (experiment_name : String) (seed : Int)
    (iteration_list : List Int) (restart_list : Addr) (max_attempts : Int)
    (generate_curves : Bool) (kwargs : List (String × V)) : RHCRunner P V :=
  ⟨_RunnerBase.init problem experiment_name seed iteration_list max_attempts
      generate_curves kwargs,
    restart_list⟩

/-- Default of the optional parameter `max_attempts: int = 500`. -/
def RHCRunner.defaultMaxAttempts : Int := 500

/-- Default of the optional parameter `generate_curves: bool = True`. -/
def RHCRunner.defaultGenerateCurves : Bool := true

/-- A call of `RHCRunner.__init__` in which the caller omits `max_attempts`
and `generate_curves`: Python substitutes the declared defaults. -/
def RHCRunner.initDefault {P V : Type} (problem : P) (experiment_name : String) (seed : Int)
    (iteration_list : List Int) (restart_list : Addr)
    (kwargs : List (String × V)) : RHCRunner P V :=
  RHCRunner.init problem experiment_name seed iteration_list restart_list
    RHCRunner.defaultMaxAttempts RHCRunner.defaultGenerateCurves kwargs

/-- Embedding of `RHCRunner.run`: the body is the single statement
`return super().run_experiment_(algorithm=mlrose_ky.random_hill_climb,
restarts=("Restarts", self.restart_list))`.  In explicit state-passing style
it yields the post-state of the runner (unchanged: the body assigns no
field) together with the returned value.  `h` is the heap current at the
moment of the call. -/
def RHCRunner.run {P V E R D : Type}
    (runAlg : BaseState P V → Invocation → Except E R)
    (aggregate : List R → Option D × Option D)
    (h : Heap) (self : RHCRunner P V) :
    RHCRunner P V × Except E (Option D × Option D) :=
  (self,
    _RunnerBase.run_experiment_ runAlg aggregate h self.base AlgorithmRef.random_hill_climb
      [⟨"restarts", ("Restarts", self.restart_list)⟩])

/-- Helper: flattening a list of singleton lists is the list of their
elements. -/
theorem flatten_map_singleton {α β : Type} (l : List α) (f : α → β) :
    (l.map (fun v => [f v])).flatten = l.map f := by
  induction l with
  | nil => rfl
  | cons x xs ih => simp [ih]

/-- Helper: the grid of a single named parameter is one singleton
assignment per distinct value of the referenced list. -/
theorem gridCombos_single (h : Heap) (p : NamedParam) :
    _RunnerBase.gridCombos h [p] =
      ((h p.value.2).dedup).map (fun v => [(p.value.1, v)]) := by
  show (((h p.value.2).dedup).map
      (fun v => [[(p.value.1, v)]])).flatten = _
  exact flatten_map_singleton _ _

/-- Helper: the invocation list of a single named parameter sweep. -/
theorem gridInvocations_single (h : Heap) (a : AlgorithmRef) (p : NamedParam) :
    _RunnerBase.gridInvocations h a [p] =
      ((h p.value.2).dedup).map (fun v => ⟨a, [(p.value.1, v)]⟩) := by
  show (_RunnerBase.gridCombos h [p]).map _ = _
  rw [gridCombos_single]
  simp

/-- C1: every call of `run()` hands the inherited sweep `run_experiment_`
exactly one named hyperparameter binding (the bindings list is the singleton
`[restarts ↦ …]`), and that binding's value is the pair
`("Restarts", self.restart_list)` with the very restart-list reference the
runner was constructed with, unmodified. -/
theorem rhc_run_single_restarts_binding {P V E R D : Type}
    (runAlg : BaseState P V → Invocation → Except E R)
    (aggregate : List R → Option D × Option D)
    (h : Heap) (p : P) (n : String) (s : Int) (il : List Int) (r : Addr)
    (ma : Int) (gc : Bool) (kw : List (String × V)) :
    (RHCRunner.run runAlg aggregate h (RHCRunner.init p n s il r ma gc kw)).2 =
      _RunnerBase.run_experiment_ runAlg aggregate h
        (RHCRunner.init p n s il r ma gc kw).base AlgorithmRef.random_hill_climb
        [⟨"restarts", ("Restarts", r)⟩] ∧
    (RHCRunner.init p n s il r ma gc kw).restart_list = r :=
  ⟨rfl, rfl⟩

/-- C2: `run()` delegates to the inherited `run_experiment_`, passing as the
algorithm argument exactly `mlrose_ky.random_hill_climb`; consequently every
invocation the sweep performs runs that algorithm and no other. -/
theorem rhc_run_algorithm_random_hill_climb {P V E R D : Type}
    (runAlg : BaseState P V → Invocation → Except E R)
    (aggregate : List R → Option D × Option D)
    (h : Heap) (self : RHCRunner P V) :
    (RHCRunner.run runAlg aggregate h self).2 =
      _RunnerBase.run_experiment_ runAlg aggregate h self.base
        AlgorithmRef.random_hill_climb
        [⟨"restarts", ("Restarts", self.restart_list)⟩] ∧
    ∀ inv ∈ _RunnerBase.gridInvocations h AlgorithmRef.random_hill_climb
        [⟨"restarts", ("Restarts", self.restart_list)⟩],
      inv.algorithm = AlgorithmRef.random_hill_climb := by
  refine ⟨rfl, ?_⟩
  intro inv hinv
  simp only [_RunnerBase.gridInvocations, List.mem_map] at hinv
  obtain ⟨ps, _, hps⟩ := hinv
  rw [← hps]

/-- C3: constructing the runner with restart-list reference `r` and calling
`run()` makes the sweep execute (via `runAll`) exactly one invocation per
distinct restart value currently stored at `r`: the invocation list is the
deduplicated value list mapped to single-parameter runs, so its length is
the number of distinct values. -/
theorem rhc_run_sweep_once_per_distinct_restart {P V E R D : Type}
    (runAlg : BaseState P V → Invocation → Except E R)
    (aggregate : List R → Option D × Option D)
    (h : Heap) (p : P) (n : String) (s : Int) (il : List Int) (r : Addr)
    (ma : Int) (gc : Bool) (kw : List (String × V)) :
    (RHCRunner.run runAlg aggregate h (RHCRunner.init p n s il r ma gc kw)).2 =
      Except.map aggregate
        (runAll (runAlg (RHCRunner.init p n s il r ma gc kw).base)
          (_RunnerBase.gridInvocations h AlgorithmRef.random_hill_climb
            [⟨"restarts", ("Restarts", r)⟩])) ∧
    _RunnerBase.gridInvocations h AlgorithmRef.random_hill_climb
        [⟨"restarts", ("Restarts", r)⟩] =
      ((h r).dedup).map
        (fun v => ⟨AlgorithmRef.random_hill_climb, [("Restarts", v)]⟩) ∧
    (_RunnerBase.gridInvocations h AlgorithmRef.random_hill_climb
        [⟨"restarts", ("Restarts", r)⟩]).length = ((h r).dedup).length := by
  refine ⟨rfl, gridInvocations_single h _ _, ?_⟩
  rw [gridInvocations_single h _ _]
  exact List.length_map _ _

/-- C4 counterexample: the claim "after `__init__` returns, `restart_list`
is non-empty and all its elements are non-negative" is false: constructing
the runner while the referenced heap cell holds the empty list succeeds and
leaves `restart_list` referencing an empty list. -/
theorem rhc_init_invariant_not_enforced_cex :
    ¬ ((fun _ => ([] : List Int))
        ((RHCRunner.init () "exp" 0 ([] : List Int) 0 500 true
          ([] : List (String × Unit))).restart_list) ≠ [] ∧
      ∀ x ∈ (fun _ => ([] : List Int))
          ((RHCRunner.init () "exp" 0 ([] : List Int) 0 500 true
            ([] : List (String × Unit))).restart_list), 0 ≤ x) := by
  intro hc
  exact hc.1 rfl

/-- C4 amended: `__init__` enforces no invariant on `restart_list`: it binds
the field to the given reference unvalidated, so after construction the
referenced list may be empty or contain negative integers — under any heap,
the contents seen through the stored reference are exactly the caller's. -/
theorem rhc_init_stores_restart_list_unvalidated {P V : Type}
    (p : P) (n : String) (s : Int) (il : List Int) (r : Addr)
    (ma : Int) (gc : Bool) (kw : List (String × V)) :
    (RHCRunner.init p n s il r ma gc kw).restart_list = r ∧
    ∀ h : Heap, h ((RHCRunner.init p n s il r ma gc kw).restart_list) = h r :=
  ⟨rfl, fun _ => rfl⟩

/-- C5: `run()` returns exactly what the underlying sweep returns: whatever
result `run_experiment_` produces at the arguments `run()` passes — the
`(None, None)` pair on the externally determined no-data condition included —
is the value `run()` returns, untransformed. -/
theorem rhc_run_returns_sweep_result_unchanged {P V E R D : Type}
    (runAlg : BaseState P V → Invocation → Except E R)
    (aggregate : List R → Option D × Option D)
    (h : Heap) (self : RHCRunner P V) (res : Except E (Option D × Option D))
    (hres : _RunnerBase.run_experiment_ runAlg aggregate h self.base
        AlgorithmRef.random_hill_climb
        [⟨"restarts", ("Restarts", self.restart_list)⟩] = res) :
    (RHCRunner.run runAlg aggregate h self).2 = res :=
  hres

/-- C5 witness: at a concrete configuration whose external aggregation
yields no data, `run()` surfaces `(None, None)` unchanged. -/
theorem rhc_run_returns_sweep_result_unchanged_witness :
    (RHCRunner.run
        (fun (_ : BaseState Unit Unit) (_ : Invocation) =>
          (Except.ok 0 : Except Nat Nat))
        (fun _ => ((none : Option Nat), (none : Option Nat)))
        (fun _ => ([] : List Int))
        (RHCRunner.init () "exp" 0 ([] : List Int) 0 500 true
          ([] : List (String × Unit)))).2 =
      (Except.ok (none, none) : Except Nat (Option Nat × Option Nat)) :=
  rhc_run_returns_sweep_result_unchanged _ _ _ _ _ rfl

/-- C6: construction never rejects the restart candidate list: even when the
referenced list is empty or contains a negative value, `__init__` succeeds,
performs no validation, and stores the reference and the forwarded
configuration exactly as given. -/
theorem rhc_init_accepts_any_restart_list {P V : Type}
    (p : P) (n : String) (s : Int) (il : List Int) (r : Addr)
    (ma : Int) (gc : Bool) (kw : List (String × V)) (h : Heap)
    (hbad : h r = [] ∨ ∃ x ∈ h r, x < 0) :
    (RHCRunner.init p n s il r ma gc kw).restart_list = r ∧
    (RHCRunner.init p n s il r ma gc kw).base =
      _RunnerBase.init p n s il ma gc kw :=
  ⟨rfl, rfl⟩

/-- C6 witness: a concrete construction with an empty referenced restart
list succeeds and stores the given configuration. -/
theorem rhc_init_accepts_any_restart_list_witness :
    (RHCRunner.init () "exp" 0 ([] : List Int) 0 500 true
        ([] : List (String × Unit))).restart_list = 0 ∧
    (RHCRunner.init () "exp" 0 ([] : List Int) 0 500 true
        ([] : List (String × Unit))).base =
      _RunnerBase.init () "exp" 0 ([] : List Int) 500 true
        ([] : List (String × Unit)) :=
  rhc_init_accepts_any_restart_list () "exp" 0 [] 0 500 true []
    (fun _ => []) (Or.inl rfl)

/-- C7: this fragment adds no error handling: a failure of the external
algorithm/base layer during `run()` propagates to the caller unchanged —
both when stated of the sweep as a whole (first conjunct) and when an
individual algorithm invocation of the sweep fails (second conjunct); no
retry, recovery or substitution happens. -/
theorem rhc_run_propagates_failure {P V E R D : Type}
    (runAlg : BaseState P V → Invocation → Except E R)
    (aggregate : List R → Option D × Option D)
    (h : Heap) (self : RHCRunner P V) (e : E) :
    (_RunnerBase.run_experiment_ runAlg aggregate h self.base
        AlgorithmRef.random_hill_climb
        [⟨"restarts", ("Restarts", self.restart_list)⟩] = Except.error e →
      (RHCRunner.run runAlg aggregate h self).2 = Except.error e) ∧
    (∀ inv rest,
      _RunnerBase.gridInvocations h AlgorithmRef.random_hill_climb
          [⟨"restarts", ("Restarts", self.restart_list)⟩] = inv :: rest →
      runAlg self.base inv = Except.error e →
      (RHCRunner.run runAlg aggregate h self).2 = Except.error e) := by
  constructor
  · intro herr
    exact herr
  · intro inv rest hgrid hfail
    show Except.map aggregate
        (runAll (runAlg self.base)
          (_RunnerBase.gridInvocations h AlgorithmRef.random_hill_climb
            [⟨"restarts", ("Restarts", self.restart_list)⟩])) = Except.error e
    rw [hgrid]
    simp [runAll, hfail, Except.map]

/-- C7 witness: at a concrete runner whose single algorithm invocation
raises error `7`, `run()` surfaces exactly that error. -/
theorem rhc_run_propagates_failure_witness :
    (RHCRunner.run (fun (_ : BaseState Unit Unit) (_ : Invocation) => Except.error (7 : Nat))
        (fun (_ : List Nat) => ((none : Option Nat), (none : Option Nat)))
        (fun _ => ([5] : List Int))
        (RHCRunner.init () "exp" 0 ([] : List Int) 0 500 true
          ([] : List (String × Unit)))).2 =
      Except.error (7 : Nat) :=
  (rhc_run_propagates_failure
      (fun (_ : BaseState Unit Unit) (_ : Invocation) => Except.error (7 : Nat))
      (fun (_ : List Nat) => ((none : Option Nat), (none : Option Nat)))
      (fun _ => ([5] : List Int))
      (RHCRunner.init () "exp" 0 ([] : List Int) 0 500 true
        ([] : List (String × Unit))) 7).1 rfl

/-- C8: the experiment configuration is held unchanged for the runner's
lifetime: `run()` mutates no field, so after a call of `run()` the runner
state — `restart_list` and every forwarded configuration field — equals the
state immediately after construction. -/
theorem rhc_run_preserves_configuration {P V E R D : Type}
    (runAlg : BaseState P V → Invocation → Except E R)
    (aggregate : List R → Option D × Option D)
    (h : Heap) (p : P) (n : String) (s : Int) (il : List Int) (r : Addr)
    (ma : Int) (gc : Bool) (kw : List (String × V)) :
    (RHCRunner.run runAlg aggregate h (RHCRunner.init p n s il r ma gc kw)).1 =
      RHCRunner.init p n s il r ma gc kw ∧
    (RHCRunner.run runAlg aggregate h (RHCRunner.init p n s il r ma gc kw)).1.restart_list
      = r :=
  ⟨rfl, rfl⟩

/-- C9: when omitted by the caller, `max_attempts` defaults to `500` and
`generate_curves` defaults to `True`, and the defaulted call equals the call
in which the caller supplies those values explicitly; the base initializer
receives them. -/
theorem rhc_init_defaults {P V : Type}
    (p : P) (n : String) (s : Int) (il : List Int) (r : Addr)
    (kw : List (String × V)) :
    RHCRunner.initDefault p n s il r kw = RHCRunner.init p n s il r 500 true kw ∧
    (RHCRunner.initDefault p n s il r kw).base.max_attempts = 500 ∧
    (RHCRunner.initDefault p n s il r kw).base.generate_curves = true :=
  ⟨rfl, rfl, rfl⟩

/-- C10: the constructor forwards `problem`, `experiment_name`, `seed`,
`iteration_list`, `max_attempts`, `generate_curves` and the extra keyword
arguments unchanged to the base initializer, and binds `self.restart_list`
to the very reference passed in (no copy); hence under whatever heap is
current when `run()` is later called — a caller's mutation of the list
included — the sweep reads the list's contents through that same reference. -/
theorem rhc_init_forwards_and_aliases {P V E R D : Type}
    (runAlg : BaseState P V → Invocation → Except E R)
    (aggregate : List R → Option D × Option D)
    (p : P) (n : String) (s : Int) (il : List Int) (r : Addr)
    (ma : Int) (gc : Bool) (kw : List (String × V)) :
    (RHCRunner.init p n s il r ma gc kw).base =
      _RunnerBase.init p n s il ma gc kw ∧
    (RHCRunner.init p n s il r ma gc kw).base.problem = p ∧
    (RHCRunner.init p n s il r ma gc kw).base.experiment_name = n ∧
    (RHCRunner.init p n s il r ma gc kw).base.seed = s ∧
    (RHCRunner.init p n s il r ma gc kw).base.iteration_list = il ∧
    (RHCRunner.init p n s il r ma gc kw).base.max_attempts = ma ∧
    (RHCRunner.init p n s il r ma gc kw).base.generate_curves = gc ∧
    (RHCRunner.init p n s il r ma gc kw).base.kwargs = kw ∧
    (RHCRunner.init p n s il r ma gc kw).restart_list = r ∧
    ∀ h2 : Heap,
      (RHCRunner.run runAlg aggregate h2 (RHCRunner.init p n s il r ma gc kw)).2 =
        Except.map aggregate
          (runAll (runAlg (RHCRunner.init p n s il r ma gc kw).base)
            (((h2 r).dedup).map
              (fun v => ⟨AlgorithmRef.random_hill_climb, [("Restarts", v)]⟩))) := by
  refine ⟨rfl, rfl, rfl, rfl, rfl, rfl, rfl, rfl, rfl, ?_⟩
  intro h2
  show Except.map aggregate
      (runAll (runAlg (RHCRunner.init p n s il r ma gc kw).base)
        (_RunnerBase.gridInvocations h2 AlgorithmRef.random_hill_climb
          [⟨"restarts", ("Restarts", r)⟩])) = _
  rw [gridInvocations_single]
